import Mathlib

/-!
Shallow embedding of the skillcart backend controllers
(`backend/controller/lecture.controller.js`, the wishlist controller and the
enrollment router) together with proofs about them.

Mongoose documents are modelled as plain structures, collections as lists,
`findById` / `findOne` as first-match searches, and each Express handler as a
pure function from its request data and the database to a `HandlerOut` value
holding the `ApiResponse` it sends, the database after the request, and the
number of mutating ORM calls it performed.  Exceptions that the JS code can
raise inside the `try` block (a `populate` that produced `null` followed by a
property access, or a database write that fails) are modelled explicitly and
routed to the `catch` branch, i.e. to the handler's server-error response.
-/

namespace SkillCart

/-- JSON-like values: request bodies and response payloads. -/
inductive JVal where
  | null
  | bool (b : Bool)
  | num (n : Int)
  | str (s : String)
  | arr (xs : List JVal)
  | obj (fields : List (String × JVal))

/-- JavaScript truthiness for the values we model (`null`, `false`, `0` and
`""` are falsy, everything else truthy). -/
def jsTruthy : JVal → Bool
  | .null => false
  | .bool b => b
  | .num n => n != 0
  | .str s => s != ""
  | .arr _ => true
  | .obj _ => true

/-- An authenticated user as exposed on `req.user` (`_id` and `role`). -/
structure User where
  id : String
  role : String
deriving DecidableEq

/-- A `Course` document: the fields the controllers read. -/
structure Course where
  id : String
  instructor : String
  published : Bool
deriving DecidableEq

/-- A `Section` document (referencing its course). -/
structure Section where
  id : String
  courseId : String
deriving DecidableEq

/-- A `Lecture` document. -/
structure Lecture where
  id : String
  title : String
  sectionId : String
  videoUrl : Option String
  duration : Option Int
  isPreview : Bool
  order : Int
deriving DecidableEq

/-- An `Enrollment` document. -/
structure Enrollment where
  user : String
  course : String
deriving DecidableEq

/-- A `Wishlist` document: one per user, with an array of course ids. -/
structure Wishlist where
  id : String
  user : String
  courses : List String
deriving DecidableEq

/-- The backing database: one list per collection. -/
structure DB where
  courses : List Course
  sections : List Section
  lectures : List Lecture
  enrollments : List Enrollment
  wishlists : List Wishlist
deriving DecidableEq

/-- `Course.findById`. -/
def findCourse (db : DB) (id : String) : Option Course :=
  db.courses.find? (fun c => c.id == id)

/-- `Section.findById`. -/
def findSec (db : DB) (id : String) : Option Section :=
  db.sections.find? (fun s => s.id == id)

/-- `Lecture.findById`. -/
def findLec (db : DB) (id : String) : Option Lecture :=
  db.lectures.find? (fun l => l.id == id)

/-- `Wishlist.findOne with user filter`. -/
def findWishlistByUser (db : DB) (uid : String) : Option Wishlist :=
  db.wishlists.find? (fun w => w.user == uid)

/-- `Enrollment.findOne with user and course filter` as issued by `getLecture`
with `user: req.user?._id`.  When the requester is not logged in the `user`
key is `undefined` and Mongoose drops it from the query, so the lookup then
matches any enrollment for the course. -/
def findEnrollmentQ (db : DB) (uid : Option String) (courseId : String) : Option Enrollment :=
  match uid with
  | some u => db.enrollments.find? (fun e => e.user == u && e.course == courseId)
  | none => db.enrollments.find? (fun e => e.course == courseId)

/-- `Lecture.find with section filter`. -/
def sectionLectures (db : DB) (sid : String) : List Lecture :=
  db.lectures.filter (fun l => l.sectionId == sid)

/-- One insertion step of the ascending-`order` sort. -/
def insertByOrder (l : Lecture) : List Lecture → List Lecture
  | [] => [l]
  | x :: xs => if l.order ≤ x.order then l :: x :: xs else x :: insertByOrder l xs

/-- `.sort .. order ascending ..` on a list of lectures (insertion sort). -/
def sortByOrder (ls : List Lecture) : List Lecture :=
  ls.foldr insertByOrder []

/-- `Lecture.find with section filter, sorted by ascending order`. -/
def sectionLecturesSorted (db : DB) (sid : String) : List Lecture :=
  sortByOrder (sectionLectures db sid)

/-- One comparison step of the descending-order `findOne`: keep whichever
lecture has the larger `order`. -/
def pickLater (acc : Option Lecture) (l : Lecture) : Option Lecture :=
  match acc with
  | none => some l
  | some m => if l.order > m.order then some l else acc

/-- `Lecture.findOne with section filter, sorted by descending order`:
returns a lecture of the section with maximal `order`, if any. -/
def lastLectureByOrder (db : DB) (sid : String) : Option Lecture :=
  (sectionLectures db sid).foldl pickLater none

/-- Modelled from the spec: the repository's uniform JSON envelope utility
(`utils/ApiResponse.js`, whose source is not included) with one constructor
per response class used by the controllers. -/
inductive ApiResponse where
  | success (message : String) (data : JVal)
  | created (message : String) (data : JVal)
  | badRequest (message : String) (errors : JVal)
  | notFound (message : String)
  | forbidden (message : String)
  | conflict (message : String)
  | serverError (message : String)

def ApiResponse.isSuccess : ApiResponse → Bool
  | .success _ _ => true
  | _ => false

def ApiResponse.isForbidden : ApiResponse → Bool
  | .forbidden _ => true
  | _ => false

def ApiResponse.isServerError : ApiResponse → Bool
  | .serverError _ => true
  | _ => false

/-- What an Express handler run produces: the response it sent, the database
after the request, and how many mutating ORM calls it issued. -/
structure HandlerOut where
  resp : ApiResponse
  db : DB
  writes : Nat

/-- `!req.user || (instructor !== user._id && role !== 'admin')`: the guard
used where `req.user` may be absent. -/
def ownerOrAdminFails (c : Course) (user : Option User) : Bool :=
  match user with
  | none => true
  | some u => c.instructor != u.id && u.role != "admin"

/-- `instructor !== user._id && role !== 'admin'`: the guard used where the
route guarantees an authenticated user. -/
def notOwnerNorAdmin (c : Course) (u : User) : Bool :=
  c.instructor != u.id && u.role != "admin"

/-! ## Request-body validation (the zod schemas) -/

/-- Property lookup on a JS object literal. -/
def getField : List (String × JVal) → String → Option JVal
  | [], _ => none
  | (k, v) :: rest, key => if k == key then some v else getField rest key

/-- The payload accepted by `createLectureSchema`. -/
structure CreateLectureInput where
  title : String
  videoUrl : Option String
  duration : Option Int
  isPreview : Option Bool
  order : Option Int
deriving DecidableEq

/-- `createLectureSchema.parse`: title required (min length 3), the other
fields optional; collects the issues of every failing field.  The `.url()`
refinement is abstracted by the `isUrl` predicate. -/
def parseCreateLecture (isUrl : String → Bool) (body : JVal) : Except JVal CreateLectureInput :=
  match body with
  | .obj fields =>
    let tIss : List String :=
      match getField fields "title" with
      | none => ["Required"]
      | some (.str s) => if s.length < 3 then ["Title must be at least 3 characters"] else []
      | some _ => ["Expected string"]
    let vIss : List String :=
      match getField fields "videoUrl" with
      | none => []
      | some (.str s) => if isUrl s then [] else ["Invalid video URL"]
      | some _ => ["Expected string"]
    let dIss : List String :=
      match getField fields "duration" with
      | none => []
      | some (.num n) => if n < 0 then ["Duration must be positive"] else []
      | some _ => ["Expected number"]
    let pIss : List String :=
      match getField fields "isPreview" with
      | none => []
      | some (.bool _) => []
      | some _ => ["Expected boolean"]
    let oIss : List String :=
      match getField fields "order" with
      | none => []
      | some (.num n) => if n < 0 then ["Number must be greater than or equal to 0"] else []
      | some _ => ["Expected number"]
    let issues := tIss ++ vIss ++ dIss ++ pIss ++ oIss
    if issues.isEmpty then
      .ok
        { title := match getField fields "title" with | some (.str s) => s | _ => ""
          videoUrl := match getField fields "videoUrl" with | some (.str s) => some s | _ => none
          duration := match getField fields "duration" with | some (.num n) => some n | _ => none
          isPreview := match getField fields "isPreview" with | some (.bool b) => some b | _ => none
          order := match getField fields "order" with | some (.num n) => some n | _ => none }
    else .error (.arr (issues.map JVal.str))
  | _ => .error (.arr [JVal.str "Expected object"])

/-- The payload accepted by `updateLectureSchema` (every field optional). -/
structure UpdateLectureInput where
  title : Option String
  videoUrl : Option String
  duration : Option Int
  isPreview : Option Bool
  order : Option Int
deriving DecidableEq

/-- `updateLectureSchema.parse`: all fields optional, same refinements as the
create schema. -/
def parseUpdateLecture (isUrl : String → Bool) (body : JVal) : Except JVal UpdateLectureInput :=
  match body with
  | .obj fields =>
    let tIss : List String :=
      match getField fields "title" with
      | none => []
      | some (.str s) => if s.length < 3 then ["String must contain at least 3 characters"] else []
      | some _ => ["Expected string"]
    let vIss : List String :=
      match getField fields "videoUrl" with
      | none => []
      | some (.str s) => if isUrl s then [] else ["Invalid url"]
      | some _ => ["Expected string"]
    let dIss : List String :=
      match getField fields "duration" with
      | none => []
      | some (.num n) => if n < 0 then ["Number must be greater than or equal to 0"] else []
      | some _ => ["Expected number"]
    let pIss : List String :=
      match getField fields "isPreview" with
      | none => []
      | some (.bool _) => []
      | some _ => ["Expected boolean"]
    let oIss : List String :=
      match getField fields "order" with
      | none => []
      | some (.num n) => if n < 0 then ["Number must be greater than or equal to 0"] else []
      | some _ => ["Expected number"]
    let issues := tIss ++ vIss ++ dIss ++ pIss ++ oIss
    if issues.isEmpty then
      .ok
        { title := match getField fields "title" with | some (.str s) => some s | _ => none
          videoUrl := match getField fields "videoUrl" with | some (.str s) => some s | _ => none
          duration := match getField fields "duration" with | some (.num n) => some n | _ => none
          isPreview := match getField fields "isPreview" with | some (.bool b) => some b | _ => none
          order := match getField fields "order" with | some (.num n) => some n | _ => none }
    else .error (.arr (issues.map JVal.str))
  | _ => .error (.arr [JVal.str "Expected object"])

/-- The `reorderLectures` body schema: `lectureIds`, a non-empty array of
strings. -/
def parseLectureIds (body : JVal) : Except JVal (List String) :=
  match body with
  | .obj fields =>
    match getField fields "lectureIds" with
    | some (.arr xs) =>
      if xs.all (fun x => match x with | .str _ => true | _ => false) then
        let ids := xs.filterMap (fun x => match x with | .str s => some s | _ => none)
        if ids.isEmpty then .error (.arr [JVal.str "Lecture IDs array required"])
        else .ok ids
      else .error (.arr [JVal.str "Expected string"])
    | some _ => .error (.arr [JVal.str "Expected array"])
    | none => .error (.arr [JVal.str "Required"])
  | _ => .error (.arr [JVal.str "Expected object"])

/-- The `addToWishlistSchema` body: `courseId`, a non-empty string. -/
def parseAddToWishlist (body : JVal) : Except JVal String :=
  match body with
  | .obj fields =>
    match getField fields "courseId" with
    | some (.str s) => if s.length < 1 then .error (.arr [JVal.str "Course ID is required"]) else .ok s
    | some _ => .error (.arr [JVal.str "Expected string"])
    | none => .error (.arr [JVal.str "Required"])
  | _ => .error (.arr [JVal.str "Expected object"])

/-! ## Response payload encodings -/

def encodeOptStr : Option String → JVal
  | none => .null
  | some s => .str s

def encodeOptNum : Option Int → JVal
  | none => .null
  | some n => .num n

/-- A lecture document as it appears in a JSON response. -/
def Lecture.toJVal (l : Lecture) : JVal :=
  .obj [("_id", .str l.id), ("title", .str l.title), ("section", .str l.sectionId),
        ("videoUrl", encodeOptStr l.videoUrl), ("duration", encodeOptNum l.duration),
        ("isPreview", .bool l.isPreview), ("order", .num l.order)]

def encodeLectures (ls : List Lecture) : JVal :=
  .arr (ls.map Lecture.toJVal)

/-- A wishlist document as it appears in a JSON response. -/
def Wishlist.toJVal (w : Wishlist) : JVal :=
  .obj [("_id", .str w.id), ("user", .str w.user),
        ("courses", .arr (w.courses.map JVal.str))]

/-! ## The lecture controller (`backend/controller/lecture.controller.js`) -/

/-- `getSectionLectures`: look the section up, gate unpublished courses on
owner-or-admin, and return the section's lectures sorted by order.  A section
whose populated `course` is `null` hits a property access on `null` inside
the `try`, hence the catch branch's server error. -/
def getSectionLectures (user : Option User) (sectionId : String) (db : DB) : HandlerOut :=
  match findSec db sectionId with
  | none => ⟨.notFound "Section not found", db, 0⟩
  | some sec =>
    match findCourse db sec.courseId with
    | none => ⟨.serverError "Failed to fetch lectures", db, 0⟩
    | some course =>
      if !course.published && ownerOrAdminFails course user then
        ⟨.forbidden "Unauthorized access", db, 0⟩
      else
        ⟨.success "Lectures fetched successfully" (encodeLectures (sectionLecturesSorted db sectionId)),
         db, 0⟩

/-- `getLecture`: look the lecture up (populating section and course); for an
unpublished course or a non-preview lecture require owner, admin, or a
matching enrollment. -/
def getLecture (user : Option User) (id : String) (db : DB) : HandlerOut :=
  match findLec db id with
  | none => ⟨.notFound "Lecture not found", db, 0⟩
  | some lec =>
    match findSec db lec.sectionId with
    | none => ⟨.serverError "Failed to fetch lecture", db, 0⟩
    | some sec =>
      match findCourse db sec.courseId with
      | none => ⟨.serverError "Failed to fetch lecture", db, 0⟩
      | some course =>
        if !course.published || !lec.isPreview then
          if ownerOrAdminFails course user then
            match findEnrollmentQ db (user.map User.id) course.id with
            | none => ⟨.forbidden "You must be enrolled to access this lecture", db, 0⟩
            | some _ => ⟨.success "Lecture fetched successfully" lec.toJVal, db, 0⟩
          else ⟨.success "Lecture fetched successfully" lec.toJVal, db, 0⟩
        else ⟨.success "Lecture fetched successfully" lec.toJVal, db, 0⟩

/-- The lecture document `Lecture.create` inserts: `order` auto-assigned
when absent (one past the section's largest, or `0`), `isPreview || false`.
`newId` stands for the `_id` Mongoose generates. -/
def createdLecture (inp : CreateLectureInput) (sectionId newId : String) (db : DB) : Lecture :=
  { id := newId, title := inp.title, sectionId := sectionId,
    videoUrl := inp.videoUrl, duration := inp.duration,
    isPreview := inp.isPreview.getD false,
    order := match inp.order with
      | some o => o
      | none => match lastLectureByOrder db sectionId with
        | some last => last.order + 1
        | none => 0 }

/-- `createLecture`: validate the body, look the section up, gate on
owner-or-admin, and insert the lecture built by `createdLecture`. -/
def createLecture (isUrl : String → Bool) (user : User) (sectionId : String)
    (body : JVal) (newId : String) (db : DB) : HandlerOut :=
  match parseCreateLecture isUrl body with
  | .error issues => ⟨.badRequest "Validation failed" issues, db, 0⟩
  | .ok inp =>
    match findSec db sectionId with
    | none => ⟨.notFound "Section not found", db, 0⟩
    | some sec =>
      match findCourse db sec.courseId with
      | none => ⟨.serverError "Failed to create lecture", db, 0⟩
      | some course =>
        if notOwnerNorAdmin course user then
          ⟨.forbidden "Only the course instructor can create lectures", db, 0⟩
        else
          let lec : Lecture := createdLecture inp sectionId newId db
          ⟨.created "Lecture created successfully" lec.toJVal,
           { db with lectures := db.lectures ++ [lec] }, 1⟩

/-- Apply the validated update payload to a lecture document, field by field,
exactly as the `if (updates.x !== undefined)` chain does. -/
def applyLectureUpdates (inp : UpdateLectureInput) (l : Lecture) : Lecture :=
  let l1 := match inp.title with | some t => { l with title := t } | none => l
  let l2 := match inp.videoUrl with | some v => { l1 with videoUrl := some v } | none => l1
  let l3 := match inp.duration with | some d => { l2 with duration := some d } | none => l2
  let l4 := match inp.isPreview with | some p => { l3 with isPreview := p } | none => l3
  match inp.order with | some o => { l4 with order := o } | none => l4

/-- `lecture.save()`: write the document back over the one with its `_id`. -/
def saveLecture (l : Lecture) (ls : List Lecture) : List Lecture :=
  ls.map (fun x => if x.id == l.id then l else x)

/-- `updateLecture`: validate, look up, gate on owner-or-admin, apply the
field updates and save. -/
def updateLecture (isUrl : String → Bool) (user : User) (id : String)
    (body : JVal) (db : DB) : HandlerOut :=
  match parseUpdateLecture isUrl body with
  | .error issues => ⟨.badRequest "Validation failed" issues, db, 0⟩
  | .ok inp =>
    match findLec db id with
    | none => ⟨.notFound "Lecture not found", db, 0⟩
    | some lec =>
      match findSec db lec.sectionId with
      | none => ⟨.serverError "Failed to update lecture", db, 0⟩
      | some sec =>
        match findCourse db sec.courseId with
        | none => ⟨.serverError "Failed to update lecture", db, 0⟩
        | some course =>
          if notOwnerNorAdmin course user then
            ⟨.forbidden "Only the course instructor can update lectures", db, 0⟩
          else
            let lec' := applyLectureUpdates inp lec
            ⟨.success "Lecture updated successfully" lec'.toJVal,
             { db with lectures := saveLecture lec' db.lectures }, 1⟩

/-- `deleteLecture`: look up, gate on owner-or-admin, delete by id. -/
def deleteLecture (user : User) (id : String) (db : DB) : HandlerOut :=
  match findLec db id with
  | none => ⟨.notFound "Lecture not found", db, 0⟩
  | some lec =>
    match findSec db lec.sectionId with
    | none => ⟨.serverError "Failed to delete lecture", db, 0⟩
    | some sec =>
      match findCourse db sec.courseId with
      | none => ⟨.serverError "Failed to delete lecture", db, 0⟩
      | some course =>
        if notOwnerNorAdmin course user then
          ⟨.forbidden "Only the course instructor can delete lectures", db, 0⟩
        else
          ⟨.success "Lecture deleted successfully" JVal.null,
           { db with lectures := db.lectures.filter (fun l => l.id != id) }, 1⟩

/-- `Lecture.findByIdAndUpdate(lectureId, order)`: set the order of the
document with that `_id` (a no-op when no such document exists). -/
def setOrder (lid : String) (ord : Int) (ls : List Lecture) : List Lecture :=
  ls.map (fun l => if l.id == lid then { l with order := ord } else l)

/-- The `Promise.all` of `findByIdAndUpdate(lectureIds[i], order i)` calls of
`reorderLectures`.  `lectureIds.map(...)` dispatches every update before any
rejection can be observed, so one call is issued per listed id regardless of
failures.  `faults` is the set of ids whose update the database rejects: a
faulty call does not apply its write, the other updates (before and after it)
are still applied, and the boolean error flag records whether any call
rejected (making `Promise.all` reject once).  Also counts the calls issued. -/
def applyReorder (faults : List String) : List String → Int → List Lecture →
    List Lecture × Bool × Nat
  | [], _, ls => (ls, false, 0)
  | lid :: rest, idx, ls =>
    if faults.contains lid then
      let r := applyReorder faults rest (idx + 1) ls
      (r.1, true, r.2.2 + 1)
    else
      let r := applyReorder faults rest (idx + 1) (setOrder lid idx ls)
      (r.1, r.2.1, r.2.2 + 1)

/-- The fault-free projection of `applyReorder`: set the order of the listed
ids to their positions, starting at `idx`. -/
def applyOrders : List String → Int → List Lecture → List Lecture
  | [], _, ls => ls
  | lid :: rest, idx, ls => applyOrders rest (idx + 1) (setOrder lid idx ls)

/-- The state `applyReorder` leaves behind: the order updates of all listed
ids except the faulty ones, whose writes were rejected. -/
def applyOrdersExcept (faults : List String) : List String → Int → List Lecture → List Lecture
  | [], _, ls => ls
  | lid :: rest, idx, ls =>
    if faults.contains lid then applyOrdersExcept faults rest (idx + 1) ls
    else applyOrdersExcept faults rest (idx + 1) (setOrder lid idx ls)

/-- `reorderLectures`: validate, look the section up, gate on owner-or-admin,
dispatch one update per listed lecture id via `Promise.all` (no check that
the lecture belongs to the section), and respond with the section's lectures
sorted by order.  When some update rejects, `Promise.all` rejects once and
the catch yields the server error, with every update that did apply (before
and after the failing one) left in place. -/
def reorderLectures (user : User) (sectionId : String) (body : JVal)
    (faults : List String) (db : DB) : HandlerOut :=
  match parseLectureIds body with
  | .error issues => ⟨.badRequest "Validation failed" issues, db, 0⟩
  | .ok lectureIds =>
    match findSec db sectionId with
    | none => ⟨.notFound "Section not found", db, 0⟩
    | some sec =>
      match findCourse db sec.courseId with
      | none => ⟨.serverError "Failed to reorder lectures", db, 0⟩
      | some course =>
        if notOwnerNorAdmin course user then
          ⟨.forbidden "Only the course instructor can reorder lectures", db, 0⟩
        else
          let r := applyReorder faults lectureIds 0 db.lectures
          let db' := { db with lectures := r.1 }
          if r.2.1 then ⟨.serverError "Failed to reorder lectures", db', r.2.2⟩
          else
            ⟨.success "Lectures reordered successfully"
              (encodeLectures (sectionLecturesSorted db' sectionId)), db', r.2.2⟩

/-! ## The wishlist controller -/

/-- `getMyWishlist`: fetch the user's wishlist, substituting an empty virtual
one when none exists. -/
def getMyWishlist (user : User) (db : DB) : HandlerOut :=
  match findWishlistByUser db user.id with
  | none =>
    ⟨.success "Wishlist fetched successfully"
      (JVal.obj [("user", .str user.id), ("courses", .arr [])]), db, 0⟩
  | some w => ⟨.success "Wishlist fetched successfully" w.toJVal, db, 0⟩

/-- `wishlist.save()`: write the document back over the one with its `_id`. -/
def saveWishlist (w : Wishlist) (ws : List Wishlist) : List Wishlist :=
  ws.map (fun x => if x.id == w.id then w else x)

/-- `addToWishlist`: validate, require the course to exist, create the
wishlist on first use, reject an id that is already present with a conflict,
otherwise push and save.  `newId` stands for the `_id` of a freshly created
wishlist document. -/
def addToWishlist (user : User) (body : JVal) (newId : String) (db : DB) : HandlerOut :=
  match parseAddToWishlist body with
  | .error issues => ⟨.badRequest "Validation failed" issues, db, 0⟩
  | .ok courseId =>
    match findCourse db courseId with
    | none => ⟨.notFound "Course not found", db, 0⟩
    | some _ =>
      match findWishlistByUser db user.id with
      | none =>
        let w : Wishlist := ⟨newId, user.id, [courseId]⟩
        ⟨.created "Course added to wishlist" w.toJVal,
         { db with wishlists := db.wishlists ++ [w] }, 1⟩
      | some w =>
        if w.courses.contains courseId then
          ⟨.conflict "Course already in wishlist", db, 0⟩
        else
          let w' := { w with courses := w.courses ++ [courseId] }
          ⟨.created "Course added to wishlist" w'.toJVal,
           { db with wishlists := saveWishlist w' db.wishlists }, 1⟩

/-- `removeFromWishlist`: not-found unless the wishlist exists and holds the
course id; otherwise filter the id out and save. -/
def removeFromWishlist (user : User) (courseId : String) (db : DB) : HandlerOut :=
  match findWishlistByUser db user.id with
  | none => ⟨.notFound "Course not in wishlist", db, 0⟩
  | some w =>
    if !w.courses.contains courseId then ⟨.notFound "Course not in wishlist", db, 0⟩
    else
      let w' := { w with courses := w.courses.filter (fun cid => cid != courseId) }
      ⟨.success "Course removed from wishlist" JVal.null,
       { db with wishlists := saveWishlist w' db.wishlists }, 1⟩

/-- `checkWishlist`: always a success response; the payload value is
`wishlist && wishlist.courses.includes(courseId)`, i.e. the `null` wishlist
itself when the user has none, a boolean otherwise. -/
def checkWishlist (user : User) (courseId : String) (db : DB) : HandlerOut :=
  let isInWishlist : JVal :=
    match findWishlistByUser db user.id with
    | none => JVal.null
    | some w => JVal.bool (w.courses.contains courseId)
  ⟨.success "Wishlist status checked" (JVal.obj [("isInWishlist", isInWishlist)]), db, 0⟩

/-- `clearWishlist`: success when no wishlist exists; otherwise empty the
array and save. -/
def clearWishlist (user : User) (db : DB) : HandlerOut :=
  match findWishlistByUser db user.id with
  | none => ⟨.success "Wishlist is already empty" JVal.null, db, 0⟩
  | some w =>
    let count := w.courses.length
    let w' := { w with courses := [] }
    ⟨.success ("Wishlist cleared (" ++ toString count ++ " items removed)") JVal.null,
     { db with wishlists := saveWishlist w' db.wishlists }, 1⟩

/-! ## The enrollment router -/

/-- A piece of middleware on an Express route: the authentication middleware,
the role-checking middleware, or a controller function. -/
inductive Middleware where
  | authenticate
  | authorize (roles : List String)
  | handler (name : String)
deriving DecidableEq

/-- A registered route: verb, path, and the middleware chain run in order. -/
structure Route where
  method : String
  path : String
  chain : List Middleware
deriving DecidableEq

/-- An Express router: the middleware installed by `use` so far, and the
routes registered so far. -/
structure Router where
  pre : List Middleware
  routes : List Route
deriving DecidableEq

/-- `router.use(m)`: `m` runs before every route registered afterwards. -/
def Router.use (r : Router) (m : Middleware) : Router :=
  { r with pre := r.pre ++ [m] }

/-- `router.method(path, mws...)`: register a route whose chain is the
accumulated `use` middleware followed by the given ones. -/
def Router.register (r : Router) (method path : String) (mws : List Middleware) : Router :=
  { r with routes := r.routes ++ [⟨method, path, r.pre ++ mws⟩] }

/-- The enrollment router exactly as built in the route file:
`use(authenticate)` first, then the six student routes, then the
instructor/admin listing route. -/
def enrollmentRouter : Router :=
  let r0 : Router := ⟨[], []⟩
  let r1 := r0.use .authenticate
  let r2 := r1.register "POST" "/" [.handler "enrollCourse"]
  let r3 := r2.register "GET" "/my" [.handler "getMyEnrollments"]
  let r4 := r3.register "GET" "/check/:courseId" [.handler "checkEnrollment"]
  let r5 := r4.register "GET" "/:courseId" [.handler "getEnrollment"]
  let r6 := r5.register "DELETE" "/:courseId" [.handler "unenrollCourse"]
  let r7 := r6.register "PATCH" "/:courseId/complete" [.handler "markCourseCompleted"]
  r7.register "GET" "/course/:courseId"
    [.authorize ["instructor", "admin"], .handler "getCourseEnrollments"]

/-! ## Statement-side notions -/

/-- A list of lectures in ascending `order`. -/
def SortedByOrder (ls : List Lecture) : Prop :=
  List.Pairwise (fun a b => a.order ≤ b.order) ls

/-- A response that is one of the `ApiResponse` envelope forms. -/
def IsEnvelope (r : ApiResponse) : Prop :=
  (∃ m d, r = .success m d) ∨ (∃ m d, r = .created m d) ∨
  (∃ m e, r = .badRequest m e) ∨ (∃ m, r = .notFound m) ∨
  (∃ m, r = .forbidden m) ∨ (∃ m, r = .conflict m) ∨ (∃ m, r = .serverError m)

/-- Every wishlist document in the database has a duplicate-free course
array. -/
def AllWishlistsNodup (db : DB) : Prop :=
  ∀ w ∈ db.wishlists, w.courses.Nodup

/-- How many lecture ids a `reorderLectures` body submits (zero when the body
does not validate). -/
def parsedIdCount (body : JVal) : Nat :=
  match parseLectureIds body with
  | .ok ids => ids.length
  | .error _ => 0

/-- One wishlist request of the requesting user, with the fresh document id
an `add` would use. -/
inductive WishlistOp where
  | add (courseId : String) (newId : String)
  | remove (courseId : String)
  | clear

/-- The database after one wishlist request. -/
def applyWishlistOp (user : User) (db : DB) : WishlistOp → DB
  | .add cid nid => (addToWishlist user (JVal.obj [("courseId", JVal.str cid)]) nid db).db
  | .remove cid => (removeFromWishlist user cid db).db
  | .clear => (clearWishlist user db).db

/-- The database after a sequence of wishlist requests. -/
def runWishlistOps (user : User) (db : DB) : List WishlistOp → DB
  | [] => db
  | op :: rest => runWishlistOps user (applyWishlistOp user db op) rest

/-! ## Concrete fixtures -/

def instUser : User := ⟨"inst", "instructor"⟩
def stuUser : User := ⟨"stu", "student"⟩
def othUser : User := ⟨"oth", "student"⟩
def wluUser : User := ⟨"wlu", "student"⟩

def course1 : Course := ⟨"c1", "inst", false⟩
def course2 : Course := ⟨"c2", "inst", true⟩

def sec1 : Section := ⟨"s1", "c1"⟩
def sec2 : Section := ⟨"s2", "c1"⟩
def secB : Section := ⟨"sB", "c2"⟩
def secD : Section := ⟨"sD", "cGone"⟩

def lec1 : Lecture := ⟨"l1", "Intro Lecture", "s1", none, none, false, 0⟩
def lec2 : Lecture := ⟨"l2", "Second Lecture", "s1", none, none, false, 1⟩
def lec3 : Lecture := ⟨"l3", "Other Section Lecture", "sB", none, none, false, 5⟩
def lecD : Lecture := ⟨"lD", "Dangling Course Lecture", "sD", none, none, false, 0⟩
def lecO : Lecture := ⟨"lO", "Orphan Lecture", "sGone", none, none, false, 0⟩

def enr1 : Enrollment := ⟨"stu", "c1"⟩

def w1 : Wishlist := ⟨"w1", "wlu", ["c1"]⟩

def db1 : DB :=
  ⟨[course1, course2], [sec1, sec2, secB, secD], [lec1, lec2, lec3, lecD, lecO], [enr1], [w1]⟩

/-- A URL refinement that accepts everything (the claims do not depend on
which strings count as URLs). -/
def anyUrl : String → Bool := fun _ => true

def createBody1 : JVal := .obj [("title", .str "Alpha")]
def createBadBody : JVal := .obj []
def updateBody1 : JVal := .obj [("title", .str "Beta")]
def updateBadBody : JVal := .obj [("title", .str "ab")]
def reorderBody2 : JVal := .obj [("lectureIds", .arr [.str "l1", .str "l2"])]
def reorderBody3 : JVal := .obj [("lectureIds", .arr [.str "l1", .str "l2", .str "l3"])]
def reorderBodyX : JVal := .obj [("lectureIds", .arr [.str "l3", .str "l1"])]
def reorderBadBody : JVal := .obj []
def addBody1 : JVal := .obj [("courseId", .str "c1")]
def addBody2 : JVal := .obj [("courseId", .str "c2")]
def addBodyGone : JVal := .obj [("courseId", .str "cGone")]
def addBadBody : JVal := .obj [("courseId", .str "")]

/-! ## Helper lemmas -/

theorem notOwnerNorAdmin_false_iff (c : Course) (u : User) :
    notOwnerNorAdmin c u = false ↔ (c.instructor = u.id ∨ u.role = "admin") := by
  simp [notOwnerNorAdmin, Bool.and_eq_false_iff]
  tauto

theorem notOwnerNorAdmin_true_iff (c : Course) (u : User) :
    notOwnerNorAdmin c u = true ↔ (c.instructor ≠ u.id ∧ u.role ≠ "admin") := by
  simp [notOwnerNorAdmin]

theorem ownerOrAdminFails_false_iff (c : Course) (user : Option User) :
    ownerOrAdminFails c user = false ↔
      ∃ u, user = some u ∧ (c.instructor = u.id ∨ u.role = "admin") := by
  cases user <;> simp [ownerOrAdminFails, Bool.and_eq_false_iff]
  tauto

theorem ownerOrAdminFails_true_iff (c : Course) (user : Option User) :
    ownerOrAdminFails c user = true ↔
      ∀ u, user = some u → (c.instructor ≠ u.id ∧ u.role ≠ "admin") := by
  cases user <;> simp [ownerOrAdminFails]

theorem mem_insertByOrder {y l : Lecture} {ls : List Lecture} :
    y ∈ insertByOrder l ls ↔ y = l ∨ y ∈ ls := by
  induction ls with
  | nil => simp [insertByOrder]
  | cons x xs ih =>
    simp only [insertByOrder]
    split
    · simp [List.mem_cons]
    · simp [List.mem_cons, ih]
      tauto

theorem sortByOrder_cons (x : Lecture) (xs : List Lecture) :
    sortByOrder (x :: xs) = insertByOrder x (sortByOrder xs) := rfl

theorem sortByOrder_mem {y : Lecture} {ls : List Lecture} :
    y ∈ sortByOrder ls ↔ y ∈ ls := by
  induction ls with
  | nil => simp [sortByOrder]
  | cons x xs ih => simp [sortByOrder_cons, mem_insertByOrder, ih, List.mem_cons]

theorem insertByOrder_sorted {l : Lecture} {ls : List Lecture} (h : SortedByOrder ls) :
    SortedByOrder (insertByOrder l ls) := by
  induction ls with
  | nil => simp [insertByOrder, SortedByOrder]
  | cons x xs ih =>
    rw [SortedByOrder, List.pairwise_cons] at h
    obtain ⟨hx, hxs⟩ := h
    simp only [insertByOrder]
    split
    · rename_i hle
      rw [SortedByOrder, List.pairwise_cons]
      refine ⟨?_, ?_⟩
      · intro y hy
        rcases List.mem_cons.1 hy with rfl | hy'
        · exact hle
        · exact le_trans hle (hx y hy')
      · rw [List.pairwise_cons]
        exact ⟨hx, hxs⟩
    · rename_i hgt
      rw [SortedByOrder, List.pairwise_cons]
      refine ⟨?_, ih hxs⟩
      intro y hy
      rcases mem_insertByOrder.1 hy with rfl | hy'
      · exact le_of_not_le hgt
      · exact hx y hy'

theorem sortByOrder_sorted (ls : List Lecture) : SortedByOrder (sortByOrder ls) := by
  induction ls with
  | nil => simp [sortByOrder, SortedByOrder]
  | cons x xs ih =>
    rw [sortByOrder_cons]
    exact insertByOrder_sorted ih

theorem envelope_of_apiResponse (r : ApiResponse) : IsEnvelope r := by
  cases r <;> unfold IsEnvelope <;> simp

theorem applyReorder_eq (faults : List String) :
    ∀ (ids : List String) (idx : Int) (ls : List Lecture),
      applyReorder faults ids idx ls =
        (applyOrdersExcept faults ids idx ls,
         ids.any (fun x => faults.contains x), ids.length) := by
  intro ids
  induction ids with
  | nil =>
    intro idx ls
    simp [applyReorder, applyOrdersExcept]
  | cons a pr ih =>
    intro idx ls
    cases ha : faults.contains a with
    | true =>
      have ha' : a ∈ faults := by simpa using ha
      simp only [applyReorder, applyOrdersExcept, ha, ih]
      simp [ha']
    | false =>
      have ha' : a ∉ faults := by simpa using ha
      simp only [applyReorder, applyOrdersExcept, ha, ih]
      simp [ha']

theorem applyReorder_writes_le (faults ids : List String) (idx : Int) (ls : List Lecture) :
    (applyReorder faults ids idx ls).2.2 ≤ ids.length := by
  simp [applyReorder_eq]

/-! ## The claims -/

/-- C6: every route registered on the enrollment router has the
authentication middleware at the head of its chain (so an unauthenticated
request never reaches an enrollment controller), and the course-enrollments
listing route additionally runs the instructor/admin role gate before its
controller. -/
theorem C6_enrollment_router_gated :
    (∀ r ∈ enrollmentRouter.routes, r.chain.head? = some Middleware.authenticate) ∧
    Route.mk "GET" "/course/:courseId"
        [Middleware.authenticate, Middleware.authorize ["instructor", "admin"],
         Middleware.handler "getCourseEnrollments"] ∈ enrollmentRouter.routes := by
  decide

/-- Witness for C6: the first enrollment route, concretely, starts with the
authentication middleware. -/
theorem C6_enrollment_router_gated_witness :
    (Route.mk "POST" "/" [Middleware.authenticate, Middleware.handler "enrollCourse"]).chain.head?
      = some Middleware.authenticate :=
  C6_enrollment_router_gated.1 _ (by decide)

/-- C7: every code path of every lecture and wishlist controller operation
returns its response through one of the uniform ApiResponse envelope forms. -/
theorem C7_uniform_envelope :
    (∀ user sid db, IsEnvelope (getSectionLectures user sid db).resp) ∧
    (∀ user id db, IsEnvelope (getLecture user id db).resp) ∧
    (∀ isUrl user sid body newId db, IsEnvelope (createLecture isUrl user sid body newId db).resp) ∧
    (∀ isUrl user id body db, IsEnvelope (updateLecture isUrl user id body db).resp) ∧
    (∀ user id db, IsEnvelope (deleteLecture user id db).resp) ∧
    (∀ user sid body faults db, IsEnvelope (reorderLectures user sid body faults db).resp) ∧
    (∀ user db, IsEnvelope (getMyWishlist user db).resp) ∧
    (∀ user body nid db, IsEnvelope (addToWishlist user body nid db).resp) ∧
    (∀ user cid db, IsEnvelope (removeFromWishlist user cid db).resp) ∧
    (∀ user cid db, IsEnvelope (checkWishlist user cid db).resp) ∧
    (∀ user db, IsEnvelope (clearWishlist user db).resp) :=
  ⟨fun _ _ _ => envelope_of_apiResponse _,
   fun _ _ _ => envelope_of_apiResponse _,
   fun _ _ _ _ _ _ => envelope_of_apiResponse _,
   fun _ _ _ _ _ => envelope_of_apiResponse _,
   fun _ _ _ => envelope_of_apiResponse _,
   fun _ _ _ _ _ => envelope_of_apiResponse _,
   fun _ _ => envelope_of_apiResponse _,
   fun _ _ _ _ => envelope_of_apiResponse _,
   fun _ _ _ => envelope_of_apiResponse _,
   fun _ _ _ => envelope_of_apiResponse _,
   fun _ _ => envelope_of_apiResponse _⟩

/-- C10: checkWishlist always responds with success; when the requester has
no wishlist document the payload's isInWishlist value is the null wishlist
itself (falsy but not a boolean), and it is a boolean exactly when a wishlist
document exists. -/
theorem C10_checkWishlist_null :
    ∀ (user : User) (courseId : String) (db : DB),
      (findWishlistByUser db user.id = none →
        (checkWishlist user courseId db).resp =
          .success "Wishlist status checked" (JVal.obj [("isInWishlist", JVal.null)]) ∧
        jsTruthy JVal.null = false ∧ ∀ b, JVal.null ≠ JVal.bool b) ∧
      (∀ w, findWishlistByUser db user.id = some w →
        (checkWishlist user courseId db).resp =
          .success "Wishlist status checked"
            (JVal.obj [("isInWishlist", JVal.bool (w.courses.contains courseId))])) := by
  intro user courseId db
  constructor
  · intro h
    refine ⟨?_, rfl, ?_⟩
    · simp [checkWishlist, h]
    · intro b hb
      exact JVal.noConfusion hb
  · intro w h
    simp [checkWishlist, h]

/-- Witness for C10: on the concrete database, a user with no wishlist gets
the null payload value and the wishlist owner gets a boolean. -/
theorem C10_checkWishlist_null_witness :
    ((checkWishlist stuUser "c1" db1).resp =
        .success "Wishlist status checked" (JVal.obj [("isInWishlist", JVal.null)]) ∧
      jsTruthy JVal.null = false ∧ ∀ b, JVal.null ≠ JVal.bool b) ∧
    (checkWishlist wluUser "c1" db1).resp =
        .success "Wishlist status checked"
          (JVal.obj [("isInWishlist", JVal.bool (w1.courses.contains "c1"))]) :=
  ⟨(C10_checkWishlist_null stuUser "c1" db1).1 rfl,
   (C10_checkWishlist_null wluUser "c1" db1).2 w1 rfl⟩

/-- C5 counterexample: reorderLectures with two submitted lecture ids issues
two mutating ORM calls in a single request, so "at most one mutating call per
request" fails. -/
theorem C5_counterexample :
    (reorderLectures instUser "s1" reorderBody2 [] db1).writes = 2 ∧
    ¬ ((reorderLectures instUser "s1" reorderBody2 [] db1).writes ≤ 1) := by
  decide

/-- C5 (amended): every controller operation except reorderLectures performs
at most one mutating ORM call per request (the read-only handlers perform
none); reorderLectures issues up to one update call per submitted lecture
id. -/
theorem C5_amended_write_counts :
    (∀ user sid db, (getSectionLectures user sid db).writes = 0) ∧
    (∀ user id db, (getLecture user id db).writes = 0) ∧
    (∀ isUrl user sid body newId db, (createLecture isUrl user sid body newId db).writes ≤ 1) ∧
    (∀ isUrl user id body db, (updateLecture isUrl user id body db).writes ≤ 1) ∧
    (∀ user id db, (deleteLecture user id db).writes ≤ 1) ∧
    (∀ user db, (getMyWishlist user db).writes = 0) ∧
    (∀ user body nid db, (addToWishlist user body nid db).writes ≤ 1) ∧
    (∀ user cid db, (removeFromWishlist user cid db).writes ≤ 1) ∧
    (∀ user cid db, (checkWishlist user cid db).writes = 0) ∧
    (∀ user db, (clearWishlist user db).writes ≤ 1) ∧
    (∀ user sid body faults db,
      (reorderLectures user sid body faults db).writes ≤ parsedIdCount body) := by
  refine ⟨?_, ?_, ?_, ?_, ?_, ?_, ?_, ?_, ?_, ?_, ?_⟩
  · intro user sid db
    unfold getSectionLectures
    repeat' split
    all_goals rfl
  · intro user id db
    unfold getLecture
    repeat' split
    all_goals rfl
  · intro isUrl user sid body newId db
    unfold createLecture
    repeat' split
    all_goals first | exact Nat.le.refl | exact Nat.zero_le _
  · intro isUrl user id body db
    unfold updateLecture
    repeat' split
    all_goals first | exact Nat.le.refl | exact Nat.zero_le _
  · intro user id db
    unfold deleteLecture
    repeat' split
    all_goals first | exact Nat.le.refl | exact Nat.zero_le _
  · intro user db
    unfold getMyWishlist
    repeat' split
    all_goals rfl
  · intro user body nid db
    unfold addToWishlist
    repeat' split
    all_goals first | exact Nat.le.refl | exact Nat.zero_le _
  · intro user cid db
    unfold removeFromWishlist
    repeat' split
    all_goals first | exact Nat.le.refl | exact Nat.zero_le _
  · intro user cid db
    rfl
  · intro user db
    unfold clearWishlist
    repeat' split
    all_goals first | exact Nat.le.refl | exact Nat.zero_le _
  · intro user sid body faults db
    unfold reorderLectures
    cases hp : parseLectureIds body with
    | error e => simp [parsedIdCount, hp]
    | ok ids =>
      simp only [parsedIdCount, hp]
      repeat' split
      all_goals first
        | exact Nat.zero_le _
        | simpa using applyReorder_writes_le faults ids 0 db.lectures

/-- C1 counterexample: on the concrete database, a student who is neither the
course's instructor nor an admin, but is enrolled, gets past getLecture's
authorization check for a non-preview lecture of an unpublished course, so
the check is not exactly the owner-or-admin check. -/
theorem C1_counterexample :
    (getLecture (some stuUser) "l1" db1).resp.isSuccess = true ∧
    stuUser.id ≠ course1.instructor ∧ stuUser.role ≠ "admin" ∧
    course1.published = false ∧ lec1.isPreview = false := by
  decide

/-- C1 (amended): for getSectionLectures on an unpublished course and for
createLecture, updateLecture, deleteLecture and reorderLectures, the request
gets past the authorization check iff the requester is the course's
instructor or has role admin, every other requester receiving a forbidden
response; getLecture on an unpublished course or non-preview lecture
additionally lets through a requester whose enrollment lookup (by requester id and
course, or by course alone when no user is attached) finds an enrollment. -/
theorem C1_amended_auth_checks :
    (∀ user sid db sec course,
      findSec db sid = some sec → findCourse db sec.courseId = some course →
      course.published = false →
      ((getSectionLectures user sid db).resp.isForbidden = false ↔
        ∃ u, user = some u ∧ (course.instructor = u.id ∨ u.role = "admin"))) ∧
    (∀ isUrl user sid body newId db inp sec course,
      parseCreateLecture isUrl body = .ok inp →
      findSec db sid = some sec → findCourse db sec.courseId = some course →
      ((createLecture isUrl user sid body newId db).resp.isForbidden = false ↔
        (course.instructor = user.id ∨ user.role = "admin"))) ∧
    (∀ isUrl user id body db inp lec sec course,
      parseUpdateLecture isUrl body = .ok inp →
      findLec db id = some lec → findSec db lec.sectionId = some sec →
      findCourse db sec.courseId = some course →
      ((updateLecture isUrl user id body db).resp.isForbidden = false ↔
        (course.instructor = user.id ∨ user.role = "admin"))) ∧
    (∀ user id db lec sec course,
      findLec db id = some lec → findSec db lec.sectionId = some sec →
      findCourse db sec.courseId = some course →
      ((deleteLecture user id db).resp.isForbidden = false ↔
        (course.instructor = user.id ∨ user.role = "admin"))) ∧
    (∀ user sid body faults db ids sec course,
      parseLectureIds body = .ok ids →
      findSec db sid = some sec → findCourse db sec.courseId = some course →
      ((reorderLectures user sid body faults db).resp.isForbidden = false ↔
        (course.instructor = user.id ∨ user.role = "admin"))) ∧
    (∀ user id db lec sec course,
      findLec db id = some lec → findSec db lec.sectionId = some sec →
      findCourse db sec.courseId = some course →
      (course.published = false ∨ lec.isPreview = false) →
      ((getLecture user id db).resp.isForbidden = false ↔
        ((∃ u, user = some u ∧ (course.instructor = u.id ∨ u.role = "admin")) ∨
          (findEnrollmentQ db (user.map User.id) course.id).isSome = true))) := by
  refine ⟨?_, ?_, ?_, ?_, ?_, ?_⟩
  · intro user sid db sec course hs hc hpub
    rw [← ownerOrAdminFails_false_iff]
    simp only [getSectionLectures, hs, hc, hpub]
    cases hg : ownerOrAdminFails course user <;>
      simp [hg, ApiResponse.isForbidden]
  · intro isUrl user sid body newId db inp sec course hp hs hc
    rw [← notOwnerNorAdmin_false_iff]
    simp only [createLecture, hp, hs, hc]
    cases hg : notOwnerNorAdmin course user <;>
      simp [hg, ApiResponse.isForbidden]
  · intro isUrl user id body db inp lec sec course hp hl hs hc
    rw [← notOwnerNorAdmin_false_iff]
    simp only [updateLecture, hp, hl, hs, hc]
    cases hg : notOwnerNorAdmin course user <;>
      simp [hg, ApiResponse.isForbidden]
  · intro user id db lec sec course hl hs hc
    rw [← notOwnerNorAdmin_false_iff]
    simp only [deleteLecture, hl, hs, hc]
    cases hg : notOwnerNorAdmin course user <;>
      simp [hg, ApiResponse.isForbidden]
  · intro user sid body faults db ids sec course hp hs hc
    rw [← notOwnerNorAdmin_false_iff]
    simp only [reorderLectures, hp, hs, hc]
    cases hg : notOwnerNorAdmin course user
    · cases herr : (applyReorder faults ids 0 db.lectures).2.1 <;>
        simp [hg, herr, ApiResponse.isForbidden]
    · simp [hg, ApiResponse.isForbidden]
  · intro user id db lec sec course hl hs hc hguard
    have hcond : (!course.published || !lec.isPreview) = true := by
      rcases hguard with h | h <;> simp [h]
    simp only [getLecture, hl, hs, hc, hcond, if_true]
    cases hg : ownerOrAdminFails course user with
    | false =>
      simp [ApiResponse.isForbidden]
      exact Or.inl ((ownerOrAdminFails_false_iff course user).1 hg)
    | true =>
      cases he : findEnrollmentQ db (user.map User.id) course.id with
      | none =>
        simp [he, ApiResponse.isForbidden]
        intro u hu
        exact (ownerOrAdminFails_true_iff course user).1 hg u hu
      | some e =>
        simp [he, ApiResponse.isForbidden]

/-- Witness for C1 (amended): each conjunct applied at a concrete request on
the concrete database. -/
theorem C1_amended_auth_checks_witness :
    ((getSectionLectures (some instUser) "s1" db1).resp.isForbidden = false ↔
      ∃ u, some instUser = some u ∧ (course1.instructor = u.id ∨ u.role = "admin")) ∧
    ((createLecture anyUrl instUser "s1" createBody1 "lNew" db1).resp.isForbidden = false ↔
      (course1.instructor = instUser.id ∨ instUser.role = "admin")) ∧
    ((updateLecture anyUrl instUser "l1" updateBody1 db1).resp.isForbidden = false ↔
      (course1.instructor = instUser.id ∨ instUser.role = "admin")) ∧
    ((deleteLecture instUser "l1" db1).resp.isForbidden = false ↔
      (course1.instructor = instUser.id ∨ instUser.role = "admin")) ∧
    ((reorderLectures instUser "s1" reorderBody2 [] db1).resp.isForbidden = false ↔
      (course1.instructor = instUser.id ∨ instUser.role = "admin")) ∧
    ((getLecture (some stuUser) "l1" db1).resp.isForbidden = false ↔
      ((∃ u, some stuUser = some u ∧ (course1.instructor = u.id ∨ u.role = "admin")) ∨
        (findEnrollmentQ db1 ((some stuUser).map User.id) course1.id).isSome = true)) :=
  ⟨C1_amended_auth_checks.1 (some instUser) "s1" db1 sec1 course1 rfl rfl rfl,
   C1_amended_auth_checks.2.1 anyUrl instUser "s1" createBody1 "lNew" db1
     ⟨"Alpha", none, none, none, none⟩ sec1 course1 rfl rfl rfl,
   C1_amended_auth_checks.2.2.1 anyUrl instUser "l1" updateBody1 db1
     ⟨some "Beta", none, none, none, none⟩ lec1 sec1 course1 rfl rfl rfl rfl,
   C1_amended_auth_checks.2.2.2.1 instUser "l1" db1 lec1 sec1 course1 rfl rfl rfl,
   C1_amended_auth_checks.2.2.2.2.1 instUser "s1" reorderBody2 [] db1
     ["l1", "l2"] sec1 course1 rfl rfl rfl,
   C1_amended_auth_checks.2.2.2.2.2 (some stuUser) "l1" db1 lec1 sec1 course1
     rfl rfl rfl (Or.inl rfl)⟩

/-- C2: across the lecture and wishlist controllers the error response is
determined by the failure class: schema-validation failure yields a
bad-request carrying the issues, a missing required resource yields
not-found, a failed authorization check yields forbidden, and any other
exception raised inside the try block (a broken populate reference, a
failing database write) is caught and yields the generic server error. -/
theorem C2_error_classes :
    (∀ user sid db, findSec db sid = none →
      (getSectionLectures user sid db).resp = .notFound "Section not found") ∧
    (∀ user sid db sec, findSec db sid = some sec → findCourse db sec.courseId = none →
      (getSectionLectures user sid db).resp = .serverError "Failed to fetch lectures") ∧
    (∀ user sid db sec course, findSec db sid = some sec →
      findCourse db sec.courseId = some course → course.published = false →
      (∀ u, user = some u → (course.instructor ≠ u.id ∧ u.role ≠ "admin")) →
      (getSectionLectures user sid db).resp = .forbidden "Unauthorized access") ∧
    (∀ user id db, findLec db id = none →
      (getLecture user id db).resp = .notFound "Lecture not found") ∧
    (∀ user id db lec, findLec db id = some lec →
      (findSec db lec.sectionId = none ∨
        (∃ sec, findSec db lec.sectionId = some sec ∧ findCourse db sec.courseId = none)) →
      (getLecture user id db).resp = .serverError "Failed to fetch lecture") ∧
    (∀ user id db lec sec course, findLec db id = some lec →
      findSec db lec.sectionId = some sec → findCourse db sec.courseId = some course →
      (course.published = false ∨ lec.isPreview = false) →
      (∀ u, user = some u → (course.instructor ≠ u.id ∧ u.role ≠ "admin")) →
      findEnrollmentQ db (user.map User.id) course.id = none →
      (getLecture user id db).resp = .forbidden "You must be enrolled to access this lecture") ∧
    (∀ isUrl user sid body newId db issues, parseCreateLecture isUrl body = .error issues →
      (createLecture isUrl user sid body newId db).resp = .badRequest "Validation failed" issues) ∧
    (∀ isUrl user sid body newId db inp, parseCreateLecture isUrl body = .ok inp →
      findSec db sid = none →
      (createLecture isUrl user sid body newId db).resp = .notFound "Section not found") ∧
    (∀ isUrl user sid body newId db inp sec, parseCreateLecture isUrl body = .ok inp →
      findSec db sid = some sec → findCourse db sec.courseId = none →
      (createLecture isUrl user sid body newId db).resp = .serverError "Failed to create lecture") ∧
    (∀ isUrl user sid body newId db inp sec course, parseCreateLecture isUrl body = .ok inp →
      findSec db sid = some sec → findCourse db sec.courseId = some course →
      course.instructor ≠ user.id → user.role ≠ "admin" →
      (createLecture isUrl user sid body newId db).resp =
        .forbidden "Only the course instructor can create lectures") ∧
    (∀ isUrl user id body db issues, parseUpdateLecture isUrl body = .error issues →
      (updateLecture isUrl user id body db).resp = .badRequest "Validation failed" issues) ∧
    (∀ isUrl user id body db inp, parseUpdateLecture isUrl body = .ok inp →
      findLec db id = none →
      (updateLecture isUrl user id body db).resp = .notFound "Lecture not found") ∧
    (∀ isUrl user id body db inp lec, parseUpdateLecture isUrl body = .ok inp →
      findLec db id = some lec →
      (findSec db lec.sectionId = none ∨
        (∃ sec, findSec db lec.sectionId = some sec ∧ findCourse db sec.courseId = none)) →
      (updateLecture isUrl user id body db).resp = .serverError "Failed to update lecture") ∧
    (∀ isUrl user id body db inp lec sec course, parseUpdateLecture isUrl body = .ok inp →
      findLec db id = some lec → findSec db lec.sectionId = some sec →
      findCourse db sec.courseId = some course →
      course.instructor ≠ user.id → user.role ≠ "admin" →
      (updateLecture isUrl user id body db).resp =
        .forbidden "Only the course instructor can update lectures") ∧
    (∀ user id db, findLec db id = none →
      (deleteLecture user id db).resp = .notFound "Lecture not found") ∧
    (∀ user id db lec, findLec db id = some lec →
      (findSec db lec.sectionId = none ∨
        (∃ sec, findSec db lec.sectionId = some sec ∧ findCourse db sec.courseId = none)) →
      (deleteLecture user id db).resp = .serverError "Failed to delete lecture") ∧
    (∀ user id db lec sec course, findLec db id = some lec →
      findSec db lec.sectionId = some sec → findCourse db sec.courseId = some course →
      course.instructor ≠ user.id → user.role ≠ "admin" →
      (deleteLecture user id db).resp =
        .forbidden "Only the course instructor can delete lectures") ∧
    (∀ user sid body faults db issues, parseLectureIds body = .error issues →
      (reorderLectures user sid body faults db).resp = .badRequest "Validation failed" issues) ∧
    (∀ user sid body faults db ids, parseLectureIds body = .ok ids →
      findSec db sid = none →
      (reorderLectures user sid body faults db).resp = .notFound "Section not found") ∧
    (∀ user sid body faults db ids sec, parseLectureIds body = .ok ids →
      findSec db sid = some sec → findCourse db sec.courseId = none →
      (reorderLectures user sid body faults db).resp =
        .serverError "Failed to reorder lectures") ∧
    (∀ user sid body faults db ids sec course, parseLectureIds body = .ok ids →
      findSec db sid = some sec → findCourse db sec.courseId = some course →
      course.instructor ≠ user.id → user.role ≠ "admin" →
      (reorderLectures user sid body faults db).resp =
        .forbidden "Only the course instructor can reorder lectures") ∧
    (∀ user sid body faults db ids sec course, parseLectureIds body = .ok ids →
      findSec db sid = some sec → findCourse db sec.courseId = some course →
      (course.instructor = user.id ∨ user.role = "admin") →
      (applyReorder faults ids 0 db.lectures).2.1 = true →
      (reorderLectures user sid body faults db).resp =
        .serverError "Failed to reorder lectures") ∧
    (∀ user body nid db issues, parseAddToWishlist body = .error issues →
      (addToWishlist user body nid db).resp = .badRequest "Validation failed" issues) ∧
    (∀ user body nid db cid, parseAddToWishlist body = .ok cid → findCourse db cid = none →
      (addToWishlist user body nid db).resp = .notFound "Course not found") ∧
    (∀ user cid db,
      (findWishlistByUser db user.id = none ∨
        (∃ w, findWishlistByUser db user.id = some w ∧ w.courses.contains cid = false)) →
      (removeFromWishlist user cid db).resp = .notFound "Course not in wishlist") := by
  refine ⟨?_, ?_, ?_, ?_, ?_, ?_, ?_, ?_, ?_, ?_, ?_, ?_, ?_, ?_, ?_, ?_, ?_, ?_, ?_, ?_,
    ?_, ?_, ?_, ?_, ?_⟩
  · intro user sid db h
    simp [getSectionLectures, h]
  · intro user sid db sec hs hc
    simp [getSectionLectures, hs, hc]
  · intro user sid db sec course hs hc hpub hu
    have hg : ownerOrAdminFails course user = true := (ownerOrAdminFails_true_iff course user).2 hu
    simp [getSectionLectures, hs, hc, hpub, hg]
  · intro user id db h
    simp [getLecture, h]
  · intro user id db lec hl h
    rcases h with h | ⟨sec, hs, hc⟩
    · simp [getLecture, hl, h]
    · simp [getLecture, hl, hs, hc]
  · intro user id db lec sec course hl hs hc hguard hu he
    have hg : ownerOrAdminFails course user = true := (ownerOrAdminFails_true_iff course user).2 hu
    have hcond : (!course.published || !lec.isPreview) = true := by
      rcases hguard with h | h <;> simp [h]
    simp [getLecture, hl, hs, hc, hcond, hg, he]
  · intro isUrl user sid body newId db issues hp
    simp [createLecture, hp]
  · intro isUrl user sid body newId db inp hp hs
    simp [createLecture, hp, hs]
  · intro isUrl user sid body newId db inp sec hp hs hc
    simp [createLecture, hp, hs, hc]
  · intro isUrl user sid body newId db inp sec course hp hs hc hni hnr
    have hg : notOwnerNorAdmin course user = true :=
      (notOwnerNorAdmin_true_iff course user).2 ⟨hni, hnr⟩
    simp [createLecture, hp, hs, hc, hg]
  · intro isUrl user id body db issues hp
    simp [updateLecture, hp]
  · intro isUrl user id body db inp hp hl
    simp [updateLecture, hp, hl]
  · intro isUrl user id body db inp lec hp hl h
    rcases h with h | ⟨sec, hs, hc⟩
    · simp [updateLecture, hp, hl, h]
    · simp [updateLecture, hp, hl, hs, hc]
  · intro isUrl user id body db inp lec sec course hp hl hs hc hni hnr
    have hg : notOwnerNorAdmin course user = true :=
      (notOwnerNorAdmin_true_iff course user).2 ⟨hni, hnr⟩
    simp [updateLecture, hp, hl, hs, hc, hg]
  · intro user id db h
    simp [deleteLecture, h]
  · intro user id db lec hl h
    rcases h with h | ⟨sec, hs, hc⟩
    · simp [deleteLecture, hl, h]
    · simp [deleteLecture, hl, hs, hc]
  · intro user id db lec sec course hl hs hc hni hnr
    have hg : notOwnerNorAdmin course user = true :=
      (notOwnerNorAdmin_true_iff course user).2 ⟨hni, hnr⟩
    simp [deleteLecture, hl, hs, hc, hg]
  · intro user sid body faults db issues hp
    simp [reorderLectures, hp]
  · intro user sid body faults db ids hp hs
    simp [reorderLectures, hp, hs]
  · intro user sid body faults db ids sec hp hs hc
    simp [reorderLectures, hp, hs, hc]
  · intro user sid body faults db ids sec course hp hs hc hni hnr
    have hg : notOwnerNorAdmin course user = true :=
      (notOwnerNorAdmin_true_iff course user).2 ⟨hni, hnr⟩
    simp [reorderLectures, hp, hs, hc, hg]
  · intro user sid body faults db ids sec course hp hs hc hown herr
    have hg : notOwnerNorAdmin course user = false :=
      (notOwnerNorAdmin_false_iff course user).2 hown
    simp [reorderLectures, hp, hs, hc, hg, herr]
  · intro user body nid db issues hp
    simp [addToWishlist, hp]
  · intro user body nid db cid hp hc
    simp [addToWishlist, hp, hc]
  · intro user cid db h
    rcases h with h | ⟨w, hw, hcont⟩
    · simp [removeFromWishlist, h]
    · have hmem : cid ∉ w.courses := by simpa using hcont
      simp [removeFromWishlist, hw, hmem]

/-- Witness for C2: every error class of every operation exercised at a
concrete request on the concrete database. -/
theorem C2_error_classes_witness :
    (getSectionLectures none "sGone" db1).resp = .notFound "Section not found" ∧
    (getSectionLectures none "sD" db1).resp = .serverError "Failed to fetch lectures" ∧
    (getSectionLectures (some othUser) "s1" db1).resp = .forbidden "Unauthorized access" ∧
    (getLecture none "lGone" db1).resp = .notFound "Lecture not found" ∧
    (getLecture none "lO" db1).resp = .serverError "Failed to fetch lecture" ∧
    (getLecture (some othUser) "l2" db1).resp =
      .forbidden "You must be enrolled to access this lecture" ∧
    (createLecture anyUrl othUser "s1" createBadBody "x" db1).resp =
      .badRequest "Validation failed" (.arr [.str "Required"]) ∧
    (createLecture anyUrl instUser "sGone" createBody1 "x" db1).resp =
      .notFound "Section not found" ∧
    (createLecture anyUrl instUser "sD" createBody1 "x" db1).resp =
      .serverError "Failed to create lecture" ∧
    (createLecture anyUrl othUser "s1" createBody1 "x" db1).resp =
      .forbidden "Only the course instructor can create lectures" ∧
    (updateLecture anyUrl othUser "l1" updateBadBody db1).resp =
      .badRequest "Validation failed" (.arr [.str "String must contain at least 3 characters"]) ∧
    (updateLecture anyUrl instUser "lGone" updateBody1 db1).resp =
      .notFound "Lecture not found" ∧
    (updateLecture anyUrl instUser "lO" updateBody1 db1).resp =
      .serverError "Failed to update lecture" ∧
    (updateLecture anyUrl othUser "l1" updateBody1 db1).resp =
      .forbidden "Only the course instructor can update lectures" ∧
    (deleteLecture instUser "lGone" db1).resp = .notFound "Lecture not found" ∧
    (deleteLecture instUser "lO" db1).resp = .serverError "Failed to delete lecture" ∧
    (deleteLecture othUser "l1" db1).resp =
      .forbidden "Only the course instructor can delete lectures" ∧
    (reorderLectures othUser "s1" reorderBadBody [] db1).resp =
      .badRequest "Validation failed" (.arr [.str "Required"]) ∧
    (reorderLectures instUser "sGone" reorderBody2 [] db1).resp =
      .notFound "Section not found" ∧
    (reorderLectures instUser "sD" reorderBody2 [] db1).resp =
      .serverError "Failed to reorder lectures" ∧
    (reorderLectures othUser "s1" reorderBody2 [] db1).resp =
      .forbidden "Only the course instructor can reorder lectures" ∧
    (reorderLectures instUser "s1" reorderBody2 ["l1"] db1).resp =
      .serverError "Failed to reorder lectures" ∧
    (addToWishlist wluUser addBadBody "x" db1).resp =
      .badRequest "Validation failed" (.arr [.str "Course ID is required"]) ∧
    (addToWishlist wluUser addBodyGone "x" db1).resp = .notFound "Course not found" ∧
    (removeFromWishlist othUser "c1" db1).resp = .notFound "Course not in wishlist" := by
  obtain ⟨h1, h2, h3, h4, h5, h6, h7, h8, h9, h10, h11, h12, h13, h14, h15, h16, h17, h18,
    h19, h20, h21, h22, h23, h24, h25⟩ := C2_error_classes
  refine ⟨h1 none "sGone" db1 rfl,
    h2 none "sD" db1 secD rfl rfl,
    h3 (some othUser) "s1" db1 sec1 course1 rfl rfl rfl ?_,
    h4 none "lGone" db1 rfl,
    h5 none "lO" db1 lecO rfl (Or.inl rfl),
    h6 (some othUser) "l2" db1 lec2 sec1 course1 rfl rfl rfl (Or.inl rfl) ?_ rfl,
    h7 anyUrl othUser "s1" createBadBody "x" db1 (.arr [.str "Required"]) rfl,
    h8 anyUrl instUser "sGone" createBody1 "x" db1 ⟨"Alpha", none, none, none, none⟩ rfl rfl,
    h9 anyUrl instUser "sD" createBody1 "x" db1 ⟨"Alpha", none, none, none, none⟩ secD rfl rfl rfl,
    h10 anyUrl othUser "s1" createBody1 "x" db1 ⟨"Alpha", none, none, none, none⟩ sec1 course1
      rfl rfl rfl (by decide) (by decide),
    h11 anyUrl othUser "l1" updateBadBody db1
      (.arr [.str "String must contain at least 3 characters"]) rfl,
    h12 anyUrl instUser "lGone" updateBody1 db1 ⟨some "Beta", none, none, none, none⟩ rfl rfl,
    h13 anyUrl instUser "lO" updateBody1 db1 ⟨some "Beta", none, none, none, none⟩ lecO
      rfl rfl (Or.inl rfl),
    h14 anyUrl othUser "l1" updateBody1 db1 ⟨some "Beta", none, none, none, none⟩ lec1 sec1
      course1 rfl rfl rfl rfl (by decide) (by decide),
    h15 instUser "lGone" db1 rfl,
    h16 instUser "lO" db1 lecO rfl (Or.inl rfl),
    h17 othUser "l1" db1 lec1 sec1 course1 rfl rfl rfl (by decide) (by decide),
    h18 othUser "s1" reorderBadBody [] db1 (.arr [.str "Required"]) rfl,
    h19 instUser "sGone" reorderBody2 [] db1 ["l1", "l2"] rfl rfl,
    h20 instUser "sD" reorderBody2 [] db1 ["l1", "l2"] secD rfl rfl rfl,
    h21 othUser "s1" reorderBody2 [] db1 ["l1", "l2"] sec1 course1 rfl rfl rfl
      (by decide) (by decide),
    h22 instUser "s1" reorderBody2 ["l1"] db1 ["l1", "l2"] sec1 course1 rfl rfl rfl
      (Or.inl rfl) rfl,
    h23 wluUser addBadBody "x" db1 (.arr [.str "Course ID is required"]) rfl,
    h24 wluUser addBodyGone "x" db1 "cGone" rfl rfl,
    h25 othUser "c1" db1 (Or.inl rfl)⟩
  · intro u hu
    injection hu with h
    subst h
    exact ⟨by decide, by decide⟩
  · intro u hu
    injection hu with h
    subst h
    exact ⟨by decide, by decide⟩

theorem addToWishlist_nodup (user : User) (body : JVal) (nid : String) (db : DB)
    (h : AllWishlistsNodup db) : AllWishlistsNodup (addToWishlist user body nid db).db := by
  cases hp : parseAddToWishlist body with
  | error e =>
    simp only [addToWishlist, hp]
    exact h
  | ok cid =>
    cases hc : findCourse db cid with
    | none =>
      simp only [addToWishlist, hp, hc]
      exact h
    | some c =>
      cases hw0 : findWishlistByUser db user.id with
      | none =>
        simp only [addToWishlist, hp, hc, hw0]
        intro w hw
        simp at hw
        rcases hw with hw | rfl
        · exact h w hw
        · simp
      | some w0 =>
        have hmem0 : w0 ∈ db.wishlists :=
          List.mem_of_find?_eq_some (by simpa [findWishlistByUser] using hw0)
        simp only [addToWishlist, hp, hc, hw0]
        cases hcont : w0.courses.contains cid with
        | true =>
          simp [hcont]
          exact h
        | false =>
          have hnotin : cid ∉ w0.courses := by simpa using hcont
          simp only [hcont, Bool.false_eq_true, if_false]
          intro w hw
          simp [saveWishlist] at hw
          rcases hw with ⟨x, hx, hfx⟩
          by_cases hxid : x.id = w0.id
          · rw [if_pos hxid] at hfx
            subst hfx
            simp [List.nodup_append]
            exact ⟨h w0 hmem0, fun hmem => hnotin hmem⟩
          · rw [if_neg hxid] at hfx
            subst hfx
            exact h x hx

theorem removeFromWishlist_nodup (user : User) (cid : String) (db : DB)
    (h : AllWishlistsNodup db) : AllWishlistsNodup (removeFromWishlist user cid db).db := by
  cases hw0 : findWishlistByUser db user.id with
  | none =>
    simp only [removeFromWishlist, hw0]
    exact h
  | some w0 =>
    have hmem0 : w0 ∈ db.wishlists :=
      List.mem_of_find?_eq_some (by simpa [findWishlistByUser] using hw0)
    simp only [removeFromWishlist, hw0]
    cases hcont : w0.courses.contains cid with
    | false =>
      simp [hcont]
      exact h
    | true =>
      simp only [hcont, Bool.not_true, Bool.false_eq_true, if_false]
      intro w hw
      simp [saveWishlist] at hw
      rcases hw with ⟨x, hx, hfx⟩
      by_cases hxid : x.id = w0.id
      · rw [if_pos hxid] at hfx
        subst hfx
        exact (h w0 hmem0).filter _
      · rw [if_neg hxid] at hfx
        subst hfx
        exact h x hx

theorem clearWishlist_nodup (user : User) (db : DB)
    (h : AllWishlistsNodup db) : AllWishlistsNodup (clearWishlist user db).db := by
  cases hw0 : findWishlistByUser db user.id with
  | none =>
    simp only [clearWishlist, hw0]
    exact h
  | some w0 =>
    simp only [clearWishlist, hw0]
    intro w hw
    simp [saveWishlist] at hw
    rcases hw with ⟨x, hx, hfx⟩
    by_cases hxid : x.id = w0.id
    · rw [if_pos hxid] at hfx
      subst hfx
      simp
    · rw [if_neg hxid] at hfx
      subst hfx
      exact h x hx

/-- C3: the duplicate-free invariant on wishlist course arrays is preserved
by every sequence of addToWishlist, removeFromWishlist and clearWishlist
requests; in particular, when the submitted course id is already present (and
the course exists), addToWishlist responds with a conflict and leaves the
database unchanged. -/
theorem C3_wishlist_nodup_invariant :
    (∀ (user : User) (db : DB) (ops : List WishlistOp), AllWishlistsNodup db →
      AllWishlistsNodup (runWishlistOps user db ops)) ∧
    (∀ (user : User) (body : JVal) (nid : String) (db : DB) (w : Wishlist) (cid : String),
      parseAddToWishlist body = .ok cid →
      (∃ c, findCourse db cid = some c) →
      findWishlistByUser db user.id = some w → cid ∈ w.courses →
      (addToWishlist user body nid db).resp = .conflict "Course already in wishlist" ∧
      (addToWishlist user body nid db).db = db) := by
  constructor
  · intro user db ops
    induction ops generalizing db with
    | nil => exact fun h => h
    | cons op rest ih =>
      intro h
      have hstep : AllWishlistsNodup (applyWishlistOp user db op) := by
        cases op with
        | add cid nid => exact addToWishlist_nodup user _ nid db h
        | remove cid => exact removeFromWishlist_nodup user cid db h
        | clear => exact clearWishlist_nodup user db h
      exact ih (applyWishlistOp user db op) hstep
  · intro user body nid db w cid hp hc hw hmem
    rcases hc with ⟨c, hc⟩
    constructor <;> simp [addToWishlist, hp, hc, hw, hmem]

/-- Witness for C3: the invariant carried through a concrete sequence of
wishlist requests, and the conflict branch hit on a concrete duplicate. -/
theorem C3_wishlist_nodup_invariant_witness :
    AllWishlistsNodup
      (runWishlistOps wluUser db1 [.add "c2" "w9", .remove "c1", .clear]) ∧
    ((addToWishlist wluUser addBody1 "w9" db1).resp = .conflict "Course already in wishlist" ∧
      (addToWishlist wluUser addBody1 "w9" db1).db = db1) :=
  ⟨C3_wishlist_nodup_invariant.1 wluUser db1 [.add "c2" "w9", .remove "c1", .clear]
      (by unfold AllWishlistsNodup; decide),
   C3_wishlist_nodup_invariant.2 wluUser addBody1 "w9" db1 w1 "c1" rfl ⟨course1, rfl⟩ rfl
      (by decide)⟩

theorem applyOrdersExcept_not_mem (faults : List String) (ids : List String) :
    ∀ (idx : Int) (ls : List Lecture) (l : Lecture), l ∈ ls → l.id ∉ ids →
      l ∈ applyOrdersExcept faults ids idx ls := by
  induction ids with
  | nil =>
    intro idx ls l hl _
    simpa [applyOrdersExcept] using hl
  | cons a pr ih =>
    intro idx ls l hl hnin
    have hrest : l.id ∉ pr := fun hx => hnin (List.mem_cons_of_mem a hx)
    have hne : l.id ≠ a := fun h => hnin (h ▸ List.mem_cons_self a pr)
    simp only [applyOrdersExcept]
    cases ha : faults.contains a with
    | true =>
      simp only [if_pos rfl]
      exact ih (idx + 1) ls l hl hrest
    | false =>
      simp only [Bool.false_eq_true, if_false]
      have hfl : (if l.id == a then { l with order := idx } else l) = l := by
        simp [hne]
      exact ih (idx + 1) (setOrder a idx ls) l (List.mem_map.2 ⟨l, hl, hfl⟩) hrest

theorem applyOrdersExcept_sets (faults : List String) (ids : List String) :
    ∀ (idx : Int) (ls : List Lecture), ids.Nodup →
      ∀ (i : Fin ids.length) (l : Lecture), l ∈ ls → l.id = ids.get i →
        faults.contains l.id = false →
        ∃ l', l' ∈ applyOrdersExcept faults ids idx ls ∧ l'.id = l.id ∧ l'.title = l.title ∧
          l'.sectionId = l.sectionId ∧ l'.order = idx + i.val := by
  induction ids with
  | nil =>
    intro idx ls _ i
    exact absurd i.isLt (by simp)
  | cons a pr ih =>
    intro idx ls hnd i l hl hid hflt
    rcases List.nodup_cons.1 hnd with ⟨hanin, hndpr⟩
    simp only [applyOrdersExcept]
    induction i using Fin.cases with
    | zero =>
      have hida : l.id = a := by simpa using hid
      have ha : faults.contains a = false := hida ▸ hflt
      simp only [ha, Bool.false_eq_true, if_false]
      have hmem : { l with order := idx } ∈ setOrder a idx ls := by
        have hfl : (if l.id == a then { l with order := idx } else l) =
            { l with order := idx } := by simp [hida]
        exact List.mem_map.2 ⟨l, hl, hfl⟩
      have hres := applyOrdersExcept_not_mem faults pr (idx + 1) (setOrder a idx ls)
        { l with order := idx } hmem (by simpa [hida] using hanin)
      exact ⟨{ l with order := idx }, hres, rfl, rfl, rfl, by simp⟩
    | succ j =>
      have hidj : l.id = pr.get j := by simpa using hid
      have hne : l.id ≠ a := by
        intro h
        exact hanin (by rw [← h, hidj]; exact List.get_mem pr j.1 j.2)
      cases ha : faults.contains a with
      | true =>
        simp only [if_pos rfl]
        obtain ⟨l', hl', hid', htitle', hsec', hord'⟩ :=
          ih (idx + 1) ls hndpr j l hl hidj hflt
        refine ⟨l', hl', hid', htitle', hsec', ?_⟩
        rw [hord', Fin.val_succ]
        push_cast
        ring
      | false =>
        simp only [Bool.false_eq_true, if_false]
        have hmem : l ∈ setOrder a idx ls := by
          have hfl : (if l.id == a then { l with order := idx } else l) = l := by
            simp [hne]
          exact List.mem_map.2 ⟨l, hl, hfl⟩
        obtain ⟨l', hl', hid', htitle', hsec', hord'⟩ :=
          ih (idx + 1) (setOrder a idx ls) hndpr j l hmem hidj hflt
        refine ⟨l', hl', hid', htitle', hsec', ?_⟩
        rw [hord', Fin.val_succ]
        push_cast
        ring

/-- C4: when some per-lecture update of reorderLectures fails, the
`Promise.all` rejection is caught once and answered with the generic server
error; every update that did apply — the writes issued before the failing
call included — remains in the database (no rollback, state not restored),
and exactly one update call was issued per submitted id (no retry). -/
theorem C4_no_rollback :
    ∀ user sid body db faults ids sec course pre bad rest,
      parseLectureIds body = .ok ids →
      findSec db sid = some sec → findCourse db sec.courseId = some course →
      (course.instructor = user.id ∨ user.role = "admin") →
      ids = pre ++ bad :: rest →
      faults.contains bad = true →
      ids.Nodup →
      (reorderLectures user sid body faults db).resp =
          .serverError "Failed to reorder lectures" ∧
      (reorderLectures user sid body faults db).db.lectures =
          applyOrdersExcept faults ids 0 db.lectures ∧
      (reorderLectures user sid body faults db).writes = ids.length ∧
      (∀ (i : Fin ids.length) (l : Lecture), l ∈ db.lectures → l.id = ids.get i →
        faults.contains l.id = false →
        ∃ l', l' ∈ (reorderLectures user sid body faults db).db.lectures ∧
          l'.id = l.id ∧ l'.title = l.title ∧ l'.sectionId = l.sectionId ∧
          l'.order = (i.val : Int)) := by
  intro user sid body db faults ids sec course pre bad rest hp hs hc hown hids hbad hnd
  have hg : notOwnerNorAdmin course user = false := (notOwnerNorAdmin_false_iff _ _).2 hown
  have hany : ids.any (fun x => faults.contains x) = true :=
    List.any_eq_true.2 ⟨bad, by simp [hids], hbad⟩
  have har := applyReorder_eq faults ids 0 db.lectures
  rw [hany] at har
  have hlecs : (reorderLectures user sid body faults db).db.lectures =
      applyOrdersExcept faults ids 0 db.lectures := by
    simp [reorderLectures, hp, hs, hc, hg, har]
  refine ⟨?_, hlecs, ?_, ?_⟩
  · simp [reorderLectures, hp, hs, hc, hg, har]
  · simp [reorderLectures, hp, hs, hc, hg, har]
  · intro i l hl hid hflt
    obtain ⟨l', hl', hid', htitle', hsec', hord'⟩ :=
      applyOrdersExcept_sets faults ids 0 db.lectures hnd i l hl hid hflt
    rw [hlecs]
    exact ⟨l', hl', hid', htitle', hsec', by omega⟩

/-- Witness for C4: reordering three ids with a fault on the middle one
yields the server error after three dispatched calls, and both the update
issued before the failure (first id to order 0) and the one after it (third
id to order 2) remain applied. -/
theorem C4_no_rollback_witness :
    (reorderLectures instUser "s1" reorderBody3 ["l2"] db1).resp =
        .serverError "Failed to reorder lectures" ∧
    (reorderLectures instUser "s1" reorderBody3 ["l2"] db1).db.lectures =
        applyOrdersExcept ["l2"] ["l1", "l2", "l3"] 0 db1.lectures ∧
    (reorderLectures instUser "s1" reorderBody3 ["l2"] db1).writes = 3 ∧
    (∃ l', l' ∈ (reorderLectures instUser "s1" reorderBody3 ["l2"] db1).db.lectures ∧
      l'.id = lec1.id ∧ l'.title = lec1.title ∧ l'.sectionId = lec1.sectionId ∧
      l'.order = ((0 : Nat) : Int)) ∧
    (∃ l', l' ∈ (reorderLectures instUser "s1" reorderBody3 ["l2"] db1).db.lectures ∧
      l'.id = lec3.id ∧ l'.title = lec3.title ∧ l'.sectionId = lec3.sectionId ∧
      l'.order = ((2 : Nat) : Int)) := by
  have h := C4_no_rollback instUser "s1" reorderBody3 db1 ["l2"] ["l1", "l2", "l3"]
    sec1 course1 ["l1"] "l2" ["l3"] rfl rfl rfl (Or.inl rfl) rfl rfl (by decide)
  exact ⟨h.1, h.2.1, h.2.2.1,
    h.2.2.2 ⟨0, by decide⟩ lec1 (by decide) rfl rfl,
    h.2.2.2 ⟨2, by decide⟩ lec3 (by decide) rfl rfl⟩

theorem applyReorder_no_fault (faults : List String) :
    ∀ (ids : List String) (idx : Int) (ls : List Lecture),
      (∀ x ∈ ids, faults.contains x = false) →
      applyReorder faults ids idx ls = (applyOrders ids idx ls, false, ids.length) := by
  intro ids
  induction ids with
  | nil =>
    intro idx ls _
    simp [applyReorder, applyOrders]
  | cons a pr ih =>
    intro idx ls hpre
    have ha : faults.contains a = false := hpre a (List.mem_cons_self a pr)
    have hrec := ih (idx + 1) (setOrder a idx ls)
      (fun x hx => hpre x (List.mem_cons_of_mem a hx))
    simp only [applyReorder, ha, hrec]
    simp [applyOrders, hrec]

theorem applyOrders_not_mem (ids : List String) :
    ∀ (idx : Int) (ls : List Lecture) (l : Lecture), l ∈ ls → l.id ∉ ids →
      l ∈ applyOrders ids idx ls := by
  induction ids with
  | nil =>
    intro idx ls l hl _
    simpa [applyOrders] using hl
  | cons a pr ih =>
    intro idx ls l hl hnin
    simp only [applyOrders]
    apply ih
    · have hne : l.id ≠ a := fun h => hnin (h ▸ List.mem_cons_self a pr)
      have hfl : (if l.id == a then { l with order := idx } else l) = l := by
        simp [hne]
      exact List.mem_map.2 ⟨l, hl, hfl⟩
    · exact fun hx => hnin (List.mem_cons_of_mem a hx)

theorem applyOrders_sets (ids : List String) :
    ∀ (idx : Int) (ls : List Lecture), ids.Nodup →
      ∀ (i : Fin ids.length) (l : Lecture), l ∈ ls → l.id = ids.get i →
        ∃ l', l' ∈ applyOrders ids idx ls ∧ l'.id = l.id ∧ l'.title = l.title ∧
          l'.sectionId = l.sectionId ∧ l'.order = idx + i.val := by
  induction ids with
  | nil =>
    intro idx ls _ i
    exact absurd i.isLt (by simp)
  | cons a pr ih =>
    intro idx ls hnd i l hl hid
    rcases List.nodup_cons.1 hnd with ⟨hanin, hndpr⟩
    simp only [applyOrders]
    induction i using Fin.cases with
    | zero =>
      have hida : l.id = a := by simpa using hid
      have hmem : { l with order := idx } ∈ setOrder a idx ls := by
        have hfl : (if l.id == a then { l with order := idx } else l) =
            { l with order := idx } := by simp [hida]
        exact List.mem_map.2 ⟨l, hl, hfl⟩
      have hres := applyOrders_not_mem pr (idx + 1) (setOrder a idx ls)
        { l with order := idx } hmem (by simpa [hida] using hanin)
      exact ⟨{ l with order := idx }, hres, rfl, rfl, rfl, by simp⟩
    | succ j =>
      have hidj : l.id = pr.get j := by simpa using hid
      have hne : l.id ≠ a := by
        intro h
        exact hanin (by rw [← h, hidj]; exact List.get_mem pr j.1 j.2)
      have hmem : l ∈ setOrder a idx ls := by
        have hfl : (if l.id == a then { l with order := idx } else l) = l := by
          simp [hne]
        exact List.mem_map.2 ⟨l, hl, hfl⟩
      obtain ⟨l', hl', hid', htitle', hsec', hord'⟩ :=
        ih (idx + 1) (setOrder a idx ls) hndpr j l hmem hidj
      refine ⟨l', hl', hid', htitle', hsec', ?_⟩
      rw [hord', Fin.val_succ]
      push_cast
      ring

theorem foldl_pickLater_some (ls : List Lecture) :
    ∀ a : Lecture, ∃ m, ls.foldl pickLater (some a) = some m ∧
      (m = a ∨ m ∈ ls) ∧ a.order ≤ m.order ∧ ∀ l ∈ ls, l.order ≤ m.order := by
  induction ls with
  | nil =>
    intro a
    exact ⟨a, rfl, Or.inl rfl, le_refl _, by simp⟩
  | cons x xs ih =>
    intro a
    by_cases hx : x.order > a.order
    · obtain ⟨m, hm, hmem, hle, hall⟩ := ih x
      refine ⟨m, ?_, ?_, ?_, ?_⟩
      · simpa [pickLater, hx] using hm
      · rcases hmem with rfl | hmem
        · exact Or.inr (List.mem_cons_self _ _)
        · exact Or.inr (List.mem_cons_of_mem _ hmem)
      · exact le_trans (le_of_lt hx) hle
      · intro l hl
        rcases List.mem_cons.1 hl with rfl | hl
        · exact hle
        · exact hall l hl
    · obtain ⟨m, hm, hmem, hle, hall⟩ := ih a
      refine ⟨m, ?_, ?_, ?_, ?_⟩
      · simpa [pickLater, hx] using hm
      · rcases hmem with rfl | hmem
        · exact Or.inl rfl
        · exact Or.inr (List.mem_cons_of_mem _ hmem)
      · exact hle
      · intro l hl
        rcases List.mem_cons.1 hl with rfl | hl
        · exact le_trans (le_of_not_lt hx) hle
        · exact hall l hl

theorem lastLectureByOrder_max (db : DB) (sid : String) :
    (sectionLectures db sid = [] → lastLectureByOrder db sid = none) ∧
    (∀ a ls, sectionLectures db sid = a :: ls →
      ∃ m, lastLectureByOrder db sid = some m ∧ m ∈ sectionLectures db sid ∧
        ∀ l ∈ sectionLectures db sid, l.order ≤ m.order) := by
  constructor
  · intro h
    simp [lastLectureByOrder, h]
  · intro a ls h
    obtain ⟨m, hm, hmem, hle, hall⟩ := foldl_pickLater_some ls a
    refine ⟨m, ?_, ?_, ?_⟩
    · rw [lastLectureByOrder, h]
      simpa [pickLater] using hm
    · rw [h]
      rcases hmem with rfl | hmem
      · exact List.mem_cons_self _ _
      · exact List.mem_cons_of_mem _ hmem
    · rw [h]
      intro l hl
      rcases List.mem_cons.1 hl with rfl | hl
      · exact hle
      · exact hall l hl

/-- C9: when createLecture is called without an order field, the created
lecture's order is one greater than the largest order among the section's
lectures, and 0 for a section with no lectures; an omitted isPreview is
stored as false. -/
theorem C9_createLecture_defaults :
    ∀ isUrl user sid body newId db inp sec course,
      parseCreateLecture isUrl body = .ok inp →
      inp.order = none → inp.isPreview = none →
      findSec db sid = some sec → findCourse db sec.courseId = some course →
      (course.instructor = user.id ∨ user.role = "admin") →
      ∃ lec,
        (createLecture isUrl user sid body newId db).resp =
          .created "Lecture created successfully" lec.toJVal ∧
        (createLecture isUrl user sid body newId db).db.lectures = db.lectures ++ [lec] ∧
        lec.isPreview = false ∧
        (sectionLectures db sid = [] → lec.order = 0) ∧
        (∀ m, m ∈ (sectionLectures db sid).map Lecture.order →
          (∀ o ∈ (sectionLectures db sid).map Lecture.order, o ≤ m) →
          lec.order = m + 1) := by
  intro isUrl user sid body newId db inp sec course hp hord hprev hs hc hown
  have hg : notOwnerNorAdmin course user = false := (notOwnerNorAdmin_false_iff _ _).2 hown
  refine ⟨createdLecture inp sid newId db, ?_, ?_, ?_, ?_, ?_⟩
  · simp [createLecture, hp, hs, hc, hg]
  · simp [createLecture, hp, hs, hc, hg]
  · simp [createdLecture, hprev]
  · intro hemp
    simp [createdLecture, hord, (lastLectureByOrder_max db sid).1 hemp]
  · intro m hmmem hmax
    simp only [createdLecture, hord]
    rcases List.mem_map.1 hmmem with ⟨lm, hlm, rfl⟩
    cases hsec : sectionLectures db sid with
    | nil =>
      rw [hsec] at hlm
      exact absurd hlm (List.not_mem_nil _)
    | cons a ls =>
      obtain ⟨mx, hmx, hmxmem, hmxall⟩ := (lastLectureByOrder_max db sid).2 a ls hsec
      simp only [hmx]
      have h1 : mx.order ≤ lm.order :=
        hmax mx.order (List.mem_map_of_mem Lecture.order hmxmem)
      have h2 : lm.order ≤ mx.order := hmxall lm hlm
      omega

/-- Witness for C9: a concrete createLecture without order or isPreview on an
empty section (order 0) and on a section whose largest order is 1 (order 2). -/
theorem C9_createLecture_defaults_witness :
    (∃ lec,
      (createLecture anyUrl instUser "s2" createBody1 "n1" db1).resp =
        .created "Lecture created successfully" lec.toJVal ∧
      (createLecture anyUrl instUser "s2" createBody1 "n1" db1).db.lectures =
        db1.lectures ++ [lec] ∧
      lec.isPreview = false ∧
      (sectionLectures db1 "s2" = [] → lec.order = 0) ∧
      (∀ m, m ∈ (sectionLectures db1 "s2").map Lecture.order →
        (∀ o ∈ (sectionLectures db1 "s2").map Lecture.order, o ≤ m) →
        lec.order = m + 1)) ∧
    (∃ lec,
      (createLecture anyUrl instUser "s1" createBody1 "n2" db1).resp =
        .created "Lecture created successfully" lec.toJVal ∧
      (createLecture anyUrl instUser "s1" createBody1 "n2" db1).db.lectures =
        db1.lectures ++ [lec] ∧
      lec.isPreview = false ∧
      (sectionLectures db1 "s1" = [] → lec.order = 0) ∧
      (∀ m, m ∈ (sectionLectures db1 "s1").map Lecture.order →
        (∀ o ∈ (sectionLectures db1 "s1").map Lecture.order, o ≤ m) →
        lec.order = m + 1)) :=
  ⟨C9_createLecture_defaults anyUrl instUser "s2" createBody1 "n1" db1
      ⟨"Alpha", none, none, none, none⟩ sec2 course1 rfl rfl rfl rfl rfl (Or.inl rfl),
   C9_createLecture_defaults anyUrl instUser "s1" createBody1 "n2" db1
      ⟨"Alpha", none, none, none, none⟩ sec1 course1 rfl rfl rfl rfl rfl (Or.inl rfl)⟩

/-- C8: reorderLectures sets the order of the lecture with id lectureIds at
position i to i for every listed existing lecture, with no check that the
lecture belongs to the section in the URL (so lectures of other sections get
rewritten too), leaves unlisted lectures untouched, and responds with only
the named section's lectures sorted by ascending order. -/
theorem C8_reorder_semantics :
    ∀ user sid body db faults ids sec course,
      parseLectureIds body = .ok ids →
      findSec db sid = some sec → findCourse db sec.courseId = some course →
      (course.instructor = user.id ∨ user.role = "admin") →
      (∀ x ∈ ids, faults.contains x = false) →
      ids.Nodup →
      (∀ (i : Fin ids.length) (l : Lecture), l ∈ db.lectures → l.id = ids.get i →
        ∃ l', l' ∈ (reorderLectures user sid body faults db).db.lectures ∧
          l'.id = l.id ∧ l'.title = l.title ∧ l'.sectionId = l.sectionId ∧
          l'.order = (i.val : Int)) ∧
      (∀ l ∈ db.lectures, l.id ∉ ids →
        l ∈ (reorderLectures user sid body faults db).db.lectures) ∧
      (reorderLectures user sid body faults db).resp =
        .success "Lectures reordered successfully"
          (encodeLectures
            (sectionLecturesSorted (reorderLectures user sid body faults db).db sid)) ∧
      SortedByOrder (sectionLecturesSorted (reorderLectures user sid body faults db).db sid) ∧
      (∀ l ∈ sectionLecturesSorted (reorderLectures user sid body faults db).db sid,
        l.sectionId = sid) := by
  intro user sid body db faults ids sec course hp hs hc hown hfa hnd
  have hg : notOwnerNorAdmin course user = false := (notOwnerNorAdmin_false_iff _ _).2 hown
  have hnf := applyReorder_no_fault faults ids 0 db.lectures hfa
  have hlecs : (reorderLectures user sid body faults db).db.lectures =
      applyOrders ids 0 db.lectures := by
    simp [reorderLectures, hp, hs, hc, hg, hnf]
  refine ⟨?_, ?_, ?_, ?_, ?_⟩
  · intro i l hl hid
    obtain ⟨l', hl', hid', htitle', hsec', hord'⟩ :=
      applyOrders_sets ids 0 db.lectures hnd i l hl hid
    rw [hlecs]
    exact ⟨l', hl', hid', htitle', hsec', by omega⟩
  · intro l hl hnin
    rw [hlecs]
    exact applyOrders_not_mem ids 0 db.lectures l hl hnin
  · simp [reorderLectures, hp, hs, hc, hg, hnf]
  · exact sortByOrder_sorted _
  · intro l hl
    have hl' := sortByOrder_mem.1 hl
    have := List.of_mem_filter hl'
    simpa using this

/-- Witness for C8: reordering section s1 with ids of a lecture of another
section first rewrites that lecture's order to 0, and the response is the
sorted listing of s1 only. -/
theorem C8_reorder_semantics_witness :
    (∃ l', l' ∈ (reorderLectures instUser "s1" reorderBodyX [] db1).db.lectures ∧
      l'.id = lec3.id ∧ l'.title = lec3.title ∧ l'.sectionId = lec3.sectionId ∧
      l'.order = ((0 : Fin 2).val : Int)) ∧
    (reorderLectures instUser "s1" reorderBodyX [] db1).resp =
      .success "Lectures reordered successfully"
        (encodeLectures
          (sectionLecturesSorted (reorderLectures instUser "s1" reorderBodyX [] db1).db "s1")) ∧
    lec3.sectionId = "sB" := by
  have h := C8_reorder_semantics instUser "s1" reorderBodyX db1 [] ["l3", "l1"] sec1 course1
    rfl rfl rfl (Or.inl rfl) (by decide) (by decide)
  exact ⟨h.1 ⟨0, by decide⟩ lec3 (by decide) rfl, h.2.2.1, rfl⟩

end SkillCart
